import Mathlib

/-!
Verification of the message audit and rate-limiting core of the repository
(`Django-Middleware-0x03/chats/middleware.py` and
`Django-signals_orm-0x04/messaging/{models,signals}.py`), over a shallow
embedding of the relevant code.

Part 1: the sliding-window rate limiter `OffensiveLanguageMiddleware`.
Time is embedded as `Int` (the code uses wall-clock datetimes and a
60-second window); per-key state is the list of recorded timestamps
(`self.message_log[ip]`). Keys are independent in the code (one list per
key in a dictionary), so the embedding models the state of one key.
-/

namespace Alx

/-- The filtering step of `OffensiveLanguageMiddleware.__call__`:
`[ts for ts in self.message_log[ip] if ts > one_minute_ago]` with
`one_minute_ago = now - 60` seconds. -/
def keepRecent (now : Int) (log : List Int) : List Int :=
  log.filter (fun ts => decide (now - 60 < ts))

/-- One call of `OffensiveLanguageMiddleware.__call__` for a tracked key:
drop expired timestamps, then deny (status 429) if five or more remain,
else record `now` and allow. Returns (allowed?, new per-key state). -/
def slidingStep (log : List Int) (now : Int) : Bool × List Int :=
  let kept := keepRecent now log
  if 5 ≤ kept.length then (false, kept) else (true, kept ++ [now])

/-- The sequence of allow/deny decisions over a sequence of call times. -/
def runDecisions (log : List Int) : List Int → List Bool
  | [] => []
  | t :: ts => (slidingStep log t).1 :: runDecisions (slidingStep log t).2 ts

/-- The call times that were granted, over a sequence of call times. -/
def runAdmitted (log : List Int) : List Int → List Int
  | [] => []
  | t :: ts =>
    if (slidingStep log t).1 then t :: runAdmitted (slidingStep log t).2 ts
    else runAdmitted (slidingStep log t).2 ts

/-- The per-key state left after a sequence of calls. -/
def runLog (log : List Int) : List Int → List Int
  | [] => log
  | t :: ts => runLog (slidingStep log t).2 ts

/-- Membership in the half-open trailing window `[t - 60, t)`. -/
def inWindow (t a : Int) : Bool :=
  decide (t - 60 ≤ a) && decide (a < t)

theorem keepRecent_keepRecent (s u : Int) (hsu : s ≤ u) (l : List Int) :
    keepRecent u (keepRecent s l) = keepRecent u l := by
  unfold keepRecent
  rw [List.filter_filter]
  apply List.filter_congr
  intro a _
  by_cases h : u - 60 < a
  · have h' : s - 60 < a := lt_of_le_of_lt (by linarith) h
    simp [h, h']
  · simp [h]

theorem keepRecent_append_self (u : Int) (l : List Int) :
    keepRecent u (l ++ [u]) = keepRecent u l ++ [u] := by
  unfold keepRecent
  rw [List.filter_append]
  simp [show u - 60 < u by linarith]

theorem keepRecent_sublist (now : Int) (log : List Int) :
    ∀ a ∈ keepRecent now log, a ∈ log := by
  intro a ha
  exact (List.mem_filter.mp ha).1

theorem countP_window_le_keepRecent (u : Int) (hist : List Int) (t : Int)
    (hu : inWindow t u = true) :
    hist.countP (inWindow t) ≤ (keepRecent u hist).length := by
  rw [keepRecent, ← List.countP_eq_length_filter]
  apply List.countP_mono_left
  intro a _ ha
  unfold inWindow at hu ha
  simp only [Bool.and_eq_true, decide_eq_true_eq] at hu ha ⊢
  linarith [hu.1, hu.2, ha.1, ha.2]

theorem runAdmitted_window_bound (calls : List Int) :
    ∀ (hist : List Int) (s : Int),
      calls.Chain' (· ≤ ·) →
      (∀ u ∈ calls.head?, s ≤ u) →
      (∀ a ∈ hist, a ≤ s) →
      (∀ t, hist.countP (inWindow t) ≤ 5) →
      ∀ t, (hist ++ runAdmitted (keepRecent s hist) calls).countP (inWindow t) ≤ 5 := by
  induction calls with
  | nil =>
    intro hist s _ _ _ hb t
    simpa [runAdmitted] using hb t
  | cons u rest ih =>
    intro hist s hchain hhead hle hb t
    rw [List.chain'_cons'] at hchain
    obtain ⟨hhd, hch⟩ := hchain
    have hsu : s ≤ u := hhead u rfl
    have hkk : keepRecent u (keepRecent s hist) = keepRecent u hist :=
      keepRecent_keepRecent s u hsu hist
    by_cases hfull : 5 ≤ (keepRecent u hist).length
    · -- denied: state shrinks to the in-window entries, nothing is recorded
      have hstep : runAdmitted (keepRecent s hist) (u :: rest)
          = runAdmitted (keepRecent u hist) rest := by
        simp [runAdmitted, slidingStep, hkk, hfull]
      rw [hstep]
      exact ih hist u hch hhd (fun a ha => le_trans (hle a ha) hsu) hb t
    · -- admitted: u is recorded; fewer than 5 in-window entries preceded it
      have hstep : runAdmitted (keepRecent s hist) (u :: rest)
          = u :: runAdmitted (keepRecent u hist ++ [u]) rest := by
        simp [runAdmitted, slidingStep, hkk, hfull]
      rw [hstep]
      have hassoc : hist ++ u :: runAdmitted (keepRecent u hist ++ [u]) rest
          = (hist ++ [u]) ++ runAdmitted (keepRecent u (hist ++ [u])) rest := by
        rw [keepRecent_append_self]
        simp
      rw [hassoc]
      apply ih (hist ++ [u]) u hch hhd
      · intro a ha
        rcases List.mem_append.mp ha with h | h
        · exact le_trans (hle a h) hsu
        · simp_all
      · intro t'
        rw [List.countP_append]
        by_cases hw : inWindow t' u = true
        · have h4 : (keepRecent u hist).length ≤ 4 := by omega
          have := countP_window_le_keepRecent u hist t' hw
          simp [List.countP_cons, hw]
          omega
        · have hw' : inWindow t' u = false := by
            cases h : inWindow t' u
            · rfl
            · exact absurd h hw
          have := hb t'
          simp [List.countP_cons, hw']
          omega

/-- C3: for every sequence of calls with non-decreasing times, at most 5
admissions are granted with call times inside any half-open trailing window
`[t - 60, t)` for the same key. -/
theorem sliding_window_admissions_bound (calls : List Int)
    (hmono : calls.Chain' (· ≤ ·)) (t : Int) :
    (runAdmitted [] calls).countP (inWindow t) ≤ 5 := by
  cases calls with
  | nil => simp [runAdmitted]
  | cons u rest =>
    have h := runAdmitted_window_bound (u :: rest) [] u hmono
      (by intro v hv; simp at hv; omega)
      (by intro a ha; simp at ha)
      (by intro t'; simp) t
    simpa [keepRecent] using h

theorem sliding_window_admissions_bound_witness :
    ([0, 10, 20, 30, 40, 45, 61] : List Int).Chain' (· ≤ ·) ∧
    (runAdmitted [] [0, 10, 20, 30, 40, 45, 61]).countP (inWindow 46) ≤ 5 :=
  ⟨by simp [List.chain'_cons], sliding_window_admissions_bound _ (by simp [List.chain'_cons]) 46⟩

/-- C6: a denied call records nothing: the surviving state is exactly the
in-window subset of the old state (the set of recorded timestamps inside the
trailing window is unchanged), every surviving timestamp was already
recorded, and every later call behaves exactly as if the denied call had
never happened. -/
theorem denied_call_no_side_effect (log : List Int) (t : Int)
    (hden : (slidingStep log t).1 = false) :
    (slidingStep log t).2 = keepRecent t log ∧
    (∀ a ∈ (slidingStep log t).2, a ∈ log) ∧
    (∀ u, t ≤ u → slidingStep (slidingStep log t).2 u = slidingStep log u) := by
  by_cases hfull : 5 ≤ (keepRecent t log).length
  · have hst : (slidingStep log t).2 = keepRecent t log := by
      simp [slidingStep, hfull]
    refine ⟨hst, ?_, ?_⟩
    · rw [hst]; exact keepRecent_sublist t log
    · intro u htu
      rw [hst]
      simp [slidingStep, keepRecent_keepRecent t u htu]
  · exfalso
    have : (slidingStep log t).1 = true := by simp [slidingStep, hfull]
    rw [this] at hden
    exact Bool.noConfusion hden

theorem denied_call_no_side_effect_witness :
    (slidingStep [1, 2, 3, 4, 5] 5).1 = false ∧
    ((slidingStep [1, 2, 3, 4, 5] 5).2 = keepRecent 5 [1, 2, 3, 4, 5] ∧
     (∀ a ∈ (slidingStep [1, 2, 3, 4, 5] 5).2, a ∈ [1, 2, 3, 4, 5]) ∧
     (∀ u, (5 : Int) ≤ u →
        slidingStep (slidingStep [1, 2, 3, 4, 5] 5).2 u = slidingStep [1, 2, 3, 4, 5] u)) :=
  ⟨by decide, denied_call_no_side_effect [1, 2, 3, 4, 5] 5 (by decide)⟩

/-- C7: with the hard-coded window of 60 and threshold of 5, calls at times
0, 10, 20, 30, 40 are all admitted, a sixth call at 45 is denied, and a call
at 61 is admitted again; the entry recorded at time 0 is no longer in the
per-key state after the call at 61 (it expired from the window). -/
theorem rate_limit_scenario :
    runDecisions [] [0, 10, 20, 30, 40, 45, 61]
      = [true, true, true, true, true, false, true] ∧
    (0 : Int) ∉ runLog [] [0, 10, 20, 30, 40, 45, 61] := by
  constructor
  · rfl
  · decide

/-!
Part 2: the messaging app (`Django-signals_orm-0x04/messaging`).
Entity identities (UUID primary keys in the source) are embedded as `Nat`;
actors are identified by their `user_id`. Timestamp fields
(`sent_at`, `edited_at`, `created_at`) play no role in the claims and are
elided.
-/

/-- `Conversation` from models.py: identity plus the `participants`
many-to-many set of user ids (unique membership). -/
structure Conversation where
  conversation_id : Nat
  participants : List Nat
deriving DecidableEq

/-- `Message` from models.py: identity, `sender` (FK User, CASCADE),
owning `conversation` (FK, CASCADE), body, `parent_message` (nullable FK
to self with CASCADE, for threaded replies), edit-tracking fields
(`edited`, `edited_by` with SET_NULL) and the `read` flag. -/
structure Message where
  message_id : Nat
  sender : Nat
  conversation : Nat
  message_body : String
  parent_message : Option Nat
  edited : Bool
  edited_by : Option Nat
  read : Bool
deriving DecidableEq

/-- `MessageHistory` from models.py: identity, `message` (FK, CASCADE),
the prior content, and `edited_by` (FK User, nullable, SET_NULL). -/
structure MessageHistory where
  history_id : Nat
  message : Nat
  old_content : String
  edited_by : Option Nat
deriving DecidableEq

/-- `Notification` from models.py: identity, target `user` (FK, CASCADE),
referenced `message` (FK, CASCADE), and `is_read` (default false). -/
structure Notification where
  notification_id : Nat
  user : Nat
  message : Nat
  is_read : Bool
deriving DecidableEq

/-- The creation loop of `create_notification_on_new_message`: one
`Notification.objects.create(user=participant, message=instance,
is_read=False)` per remaining participant. `fresh` stands in for the uuid4
primary-key generator (each created row gets a distinct new id). -/
def fanout (msg : Message) : Nat → List Nat → List Notification
  | _, [] => []
  | fresh, p :: ps =>
    { notification_id := fresh, user := p,
      message := msg.message_id, is_read := false }
      :: fanout msg (fresh + 1) ps

/-- `create_notification_on_new_message` from signals.py (post_save,
created=True): notify `conversation.participants.exclude(user_id =
instance.sender.user_id)`. Returns the created notifications. -/
def create_notification_on_new_message (conv : Conversation) (msg : Message)
    (fresh : Nat) : List Notification :=
  fanout msg fresh (conv.participants.filter (fun p => p != msg.sender))

/-- `save_message_history_before_edit` from signals.py (pre_save).
`pk` is the truthiness-tested `instance.pk` (`none` embeds a falsy pk);
`stored` is the message table that `Message.objects.get(pk=instance.pk)`
consults, and a failed lookup (`Message.DoesNotExist`) is passed over.
On a content change it creates one `MessageHistory` row with
`message=old_message`, `old_content=old_message.message_body`,
`edited_by=old_message.sender`, and sets `instance.edited = True`.
Returns the (possibly annotated) instance and the created rows. -/
def save_message_history_before_edit (stored : List Message) (pk : Option Nat)
    (msg : Message) (fresh : Nat) : Message × List MessageHistory :=
  match pk with
  | none => (msg, [])
  | some k =>
    match stored.find? (fun m => m.message_id == k) with
    | none => (msg, [])
    | some old_message =>
      if old_message.message_body != msg.message_body then
        ({ msg with edited := true },
         [{ history_id := fresh, message := old_message.message_id,
            old_content := old_message.message_body,
            edited_by := some old_message.sender }])
      else (msg, [])

/-- The database state the messaging app maintains. -/
structure DB where
  users : List Nat
  conversations : List Conversation
  messages : List Message
  histories : List MessageHistory
  notifications : List Notification
deriving DecidableEq

/-- One round of Django's delete-collector walk along the
`Message.parent_message` CASCADE: collect every message whose parent is
already collected. -/
def deadStep (msgs : List Message) (dead : List Nat) : List Nat :=
  dead ++ (msgs.filter (fun m =>
    !(decide (m.message_id ∈ dead)) &&
      m.parent_message.any (fun p => decide (p ∈ dead)))).map Message.message_id

/-- Iterate `deadStep` a given number of rounds. -/
def deadClosure (msgs : List Message) : Nat → List Nat → List Nat
  | 0, dead => dead
  | n + 1, dead => deadClosure msgs n (deadStep msgs dead)

/-- The ids of the message rows removed by deleting every message with
`sender = u`: those messages themselves and, transitively through the
`parent_message` CASCADE, every reply below them. `msgs.length` rounds
reach the fixpoint, since each round short of it collects at least one
previously uncollected message of `msgs`. -/
def cascadeDeadIds (msgs : List Message) (u : Nat) : List Nat :=
  deadClosure msgs msgs.length
    ((msgs.filter (fun m => m.sender == u)).map Message.message_id)

/-- `cleanup_user_related_data` from signals.py (post_delete on User):
`Message.objects.filter(sender=instance).delete()` (a queryset delete,
which CASCADE-deletes replies below those messages via `parent_message`,
and the `MessageHistory` and `Notification` rows of every deleted
message), then `Notification.objects.filter(user=instance).delete()`,
then `MessageHistory.objects.filter(edited_by=instance).delete()`. -/
def cleanup_user_related_data (db : DB) (u : Nat) : DB :=
  let dead := cascadeDeadIds db.messages u
  let db1 : DB :=
    { db with
      messages := db.messages.filter (fun m => !(decide (m.message_id ∈ dead))),
      histories := db.histories.filter (fun h => !(decide (h.message ∈ dead))),
      notifications := db.notifications.filter (fun n => !(decide (n.message ∈ dead))) }
  let db2 : DB :=
    { db1 with notifications := db1.notifications.filter (fun n => n.user != u) }
  { db2 with histories := db2.histories.filter (fun h => h.edited_by != some u) }

/-- The referential behaviour Django applies while deleting a `User` row,
before any post_delete signal fires, per the `on_delete` declarations in
models.py: messages whose `sender` is the user are CASCADE-deleted,
which CASCADE-deletes the replies below them (`parent_message`) and the
`MessageHistory` and `Notification` rows of every deleted message;
notifications whose `user` is the user are CASCADE-deleted;
`Message.edited_by` and `MessageHistory.edited_by` are SET_NULL; the
user's `Conversation.participants` membership rows are removed. -/
def djangoUserDeleteCascade (db : DB) (u : Nat) : DB :=
  let dead := cascadeDeadIds db.messages u
  { users := db.users.filter (fun x => x != u),
    conversations := db.conversations.map (fun c =>
      { c with participants := c.participants.filter (fun p => p != u) }),
    messages := (db.messages.filter (fun m => !(decide (m.message_id ∈ dead)))).map (fun m =>
      if m.edited_by == some u then { m with edited_by := none } else m),
    histories := (db.histories.filter (fun h => !(decide (h.message ∈ dead)))).map (fun h =>
      if h.edited_by == some u then { h with edited_by := none } else h),
    notifications := (db.notifications.filter (fun n => n.user != u)).filter
      (fun n => !(decide (n.message ∈ dead))) }

/-- End-to-end deletion of a user: Django's FK/M2M handling, then the
post_delete signal `cleanup_user_related_data`. -/
def deleteUser (db : DB) (u : Nat) : DB :=
  cleanup_user_related_data (djangoUserDeleteCascade db u) u

theorem fanout_length (msg : Message) (l : List Nat) (fresh : Nat) :
    (fanout msg fresh l).length = l.length := by
  induction l generalizing fresh with
  | nil => rfl
  | cons p ps ih => simp [fanout, ih]

theorem fanout_countP_pair (msg : Message) (p : Nat) (l : List Nat) (fresh : Nat) :
    (fanout msg fresh l).countP
      (fun n => n.user == p && n.message == msg.message_id && !n.is_read)
      = l.count p := by
  induction l generalizing fresh with
  | nil => rfl
  | cons q ps ih =>
    rw [fanout, List.countP_cons, List.count_cons, ih]
    by_cases h : q = p
    · simp [h]
    · simp [h, Ne.symm h]

theorem fanout_countP_user (msg : Message) (p : Nat) (l : List Nat) (fresh : Nat) :
    (fanout msg fresh l).countP (fun n => n.user == p) = l.count p := by
  induction l generalizing fresh with
  | nil => rfl
  | cons q ps ih =>
    rw [fanout, List.countP_cons, List.count_cons, ih]

/-- C4: on message creation, each participant of the conversation other than
the sender receives exactly one fresh unread notification for that message,
the sender receives none, and the number of notifications created is the
number of participants other than the sender (two in a three-participant
conversation containing the sender). -/
theorem notification_fanout_correct (conv : Conversation) (msg : Message)
    (fresh : Nat) (hnd : conv.participants.Nodup) :
    (∀ p ∈ conv.participants, p ≠ msg.sender →
      (create_notification_on_new_message conv msg fresh).countP
        (fun n => n.user == p && n.message == msg.message_id && !n.is_read) = 1)
    ∧ (create_notification_on_new_message conv msg fresh).countP
        (fun n => n.user == msg.sender) = 0
    ∧ (create_notification_on_new_message conv msg fresh).length
        = (conv.participants.filter (fun p => p != msg.sender)).length := by
  unfold create_notification_on_new_message
  refine ⟨?_, ?_, fanout_length _ _ _⟩
  · intro p hp hne
    rw [fanout_countP_pair]
    have hmemf : p ∈ conv.participants.filter (fun q => q != msg.sender) := by
      rw [List.mem_filter]
      exact ⟨hp, by simp [hne]⟩
    exact List.count_eq_one_of_mem (hnd.filter _) hmemf
  · rw [fanout_countP_user]
    rw [List.count_eq_zero]
    intro hmem
    have := (List.mem_filter.mp hmem).2
    simp at this

theorem notification_fanout_correct_witness :
    (([0, 1, 2] : List Nat).Nodup ∧
      ((∀ p ∈ ([0, 1, 2] : List Nat), p ≠ 0 →
        (create_notification_on_new_message ⟨7, [0, 1, 2]⟩
          ⟨10, 0, 7, "hey", none, false, none, false⟩ 100).countP
          (fun n => n.user == p && n.message == 10 && !n.is_read) = 1)
      ∧ (create_notification_on_new_message ⟨7, [0, 1, 2]⟩
          ⟨10, 0, 7, "hey", none, false, none, false⟩ 100).countP
          (fun n => n.user == 0) = 0
      ∧ (create_notification_on_new_message ⟨7, [0, 1, 2]⟩
          ⟨10, 0, 7, "hey", none, false, none, false⟩ 100).length
          = (([0, 1, 2] : List Nat).filter (fun p => p != 0)).length)) ∧
    (create_notification_on_new_message ⟨7, [0, 1, 2]⟩
      ⟨10, 0, 7, "hey", none, false, none, false⟩ 100).length = 2 :=
  ⟨⟨by decide, notification_fanout_correct ⟨7, [0, 1, 2]⟩
      ⟨10, 0, 7, "hey", none, false, none, false⟩ 100 (by decide)⟩, by decide⟩

/-- A stored message: author is user 7, content "hi". -/
def preMsg : Message :=
  { message_id := 1, sender := 7, conversation := 1, message_body := "hi",
    parent_message := none, edited := false, edited_by := none, read := false }

/-- An update of `preMsg` to content "hello", with the caller attributing the
edit to user 9 on the post-image's `edited_by` field. -/
def postMsg : Message :=
  { message_id := 1, sender := 7, conversation := 1, message_body := "hello",
    parent_message := none, edited := false, edited_by := some 9, read := false }

/-- C1 counterexample: for the content-changing update of `preMsg` to
`postMsg`, the single snapshot's editor is user 7 (the pre-image's sender),
not the post-image's editor (user 9): the handler ignores any
caller-supplied editor. -/
theorem history_editor_cex :
    ((save_message_history_before_edit [preMsg] (some 1) postMsg 0).2.map
      MessageHistory.edited_by) ≠ [postMsg.edited_by] := by decide

/-- C1 amended: for every Message update whose new content differs from the
stored content, exactly one HistorySnapshot is created, with `old_content`
equal to the pre-update content and `editor` equal to the pre-image's
`sender` (the message author), regardless of any editor the caller put on
the post-image; and the post-image's `edited` flag is set to true. -/
theorem history_on_content_change (stored : List Message) (k fresh : Nat)
    (msg old_message : Message)
    (hfind : stored.find? (fun m => m.message_id == k) = some old_message)
    (hne : old_message.message_body ≠ msg.message_body) :
    save_message_history_before_edit stored (some k) msg fresh
      = ({ msg with edited := true },
         [{ history_id := fresh, message := old_message.message_id,
            old_content := old_message.message_body,
            edited_by := some old_message.sender }]) := by
  simp [save_message_history_before_edit, hfind, hne]

theorem history_on_content_change_witness :
    ([preMsg].find? (fun m => m.message_id == 1) = some preMsg ∧
      preMsg.message_body ≠ postMsg.message_body) ∧
    save_message_history_before_edit [preMsg] (some 1) postMsg 5
      = ({ postMsg with edited := true },
         [{ history_id := 5, message := preMsg.message_id,
            old_content := preMsg.message_body,
            edited_by := some preMsg.sender }]) :=
  ⟨⟨by decide, by decide⟩,
   history_on_content_change [preMsg] 1 5 postMsg preMsg (by decide) (by decide)⟩

/-- C5: for every Message update whose content equals the stored content, no
HistorySnapshot is created and the instance (its `edited` flag included) is
returned untouched. -/
theorem no_history_when_content_unchanged (stored : List Message) (k fresh : Nat)
    (msg old_message : Message)
    (hfind : stored.find? (fun m => m.message_id == k) = some old_message)
    (heq : old_message.message_body = msg.message_body) :
    save_message_history_before_edit stored (some k) msg fresh = (msg, []) := by
  simp [save_message_history_before_edit, hfind, heq]

theorem no_history_when_content_unchanged_witness :
    ([preMsg].find? (fun m => m.message_id == 1) = some preMsg ∧
      preMsg.message_body = preMsg.message_body) ∧
    save_message_history_before_edit [preMsg] (some 1) preMsg 5 = (preMsg, []) :=
  ⟨⟨by decide, rfl⟩,
   no_history_when_content_unchanged [preMsg] 1 5 preMsg preMsg (by decide) rfl⟩

/-- C10: when the pre_save handler fires for an instance with a falsy
primary key, or for a primary key with no stored message, it creates no
snapshot and returns the instance unchanged (the `Message.DoesNotExist`
branch is passed over, so the triggering save proceeds). -/
theorem no_history_without_preimage (stored : List Message) (pk : Option Nat)
    (msg : Message) (fresh : Nat)
    (h : pk = none ∨ ∃ k, pk = some k ∧
      stored.find? (fun m => m.message_id == k) = none) :
    save_message_history_before_edit stored pk msg fresh = (msg, []) := by
  rcases h with h | ⟨k, hpk, hfind⟩
  · rw [h]; rfl
  · rw [hpk]; simp [save_message_history_before_edit, hfind]

theorem no_history_without_preimage_witness :
    ((some 5 : Option Nat) = none ∨ ∃ k, (some 5 : Option Nat) = some k ∧
      ([] : List Message).find? (fun m => m.message_id == k) = none) ∧
    save_message_history_before_edit [] (some 5) postMsg 0 = (postMsg, []) :=
  ⟨Or.inr ⟨5, rfl, rfl⟩,
   no_history_without_preimage [] (some 5) postMsg 0 (Or.inr ⟨5, rfl, rfl⟩)⟩

/-- A two-participant conversation: users 0 and 1. -/
def pairConv : Conversation := { conversation_id := 1, participants := [0, 1] }

/-- A message from user 0 in `pairConv`. -/
def pairMsg : Message :=
  { message_id := 10, sender := 0, conversation := 1, message_body := "hi",
    parent_message := none, edited := false, edited_by := none, read := false }

/-- C8 counterexample: processing the Created event for `pairMsg` twice (a
retry) yields two Notifications for the pair (participant 1, message 10):
the handler has no idempotency guard and the model has no uniqueness
constraint on (user, message). -/
theorem fanout_retry_duplicate_cex :
    (create_notification_on_new_message pairConv pairMsg 0
      ++ create_notification_on_new_message pairConv pairMsg 1).countP
      (fun n => n.user == 1 && n.message == 10) = 2 := by decide

/-- C8 amended: notification fan-out is not idempotent per (participant,
message) pair: each processing of the Created event for the same message
creates one fresh Notification per non-author participant, so processing it
twice leaves exactly two notifications for each such pair. -/
theorem fanout_reprocess_duplicates (conv : Conversation) (msg : Message)
    (f1 f2 p : Nat) (hnd : conv.participants.Nodup)
    (hp : p ∈ conv.participants) (hne : p ≠ msg.sender) :
    (create_notification_on_new_message conv msg f1
      ++ create_notification_on_new_message conv msg f2).countP
      (fun n => n.user == p && n.message == msg.message_id && !n.is_read) = 2 := by
  rw [List.countP_append]
  unfold create_notification_on_new_message
  rw [fanout_countP_pair, fanout_countP_pair]
  have hmemf : p ∈ conv.participants.filter (fun q => q != msg.sender) := by
    rw [List.mem_filter]
    exact ⟨hp, by simp [hne]⟩
  rw [List.count_eq_one_of_mem (hnd.filter _) hmemf]

theorem fanout_reprocess_duplicates_witness :
    (pairConv.participants.Nodup ∧ 1 ∈ pairConv.participants ∧ 1 ≠ pairMsg.sender) ∧
    (create_notification_on_new_message pairConv pairMsg 0
      ++ create_notification_on_new_message pairConv pairMsg 2).countP
      (fun n => n.user == 1 && n.message == pairMsg.message_id && !n.is_read) = 2 :=
  ⟨⟨by decide, by decide, by decide⟩,
   fanout_reprocess_duplicates pairConv pairMsg 0 2 1 (by decide) (by decide) (by decide)⟩

theorem subset_deadClosure (msgs : List Message) (n : Nat) :
    ∀ dead, dead ⊆ deadClosure msgs n dead := by
  induction n with
  | zero => intro dead; exact List.Subset.refl dead
  | succ n ih =>
    intro dead
    exact List.Subset.trans (List.subset_append_left _ _) (ih (deadStep msgs dead))

theorem sender_mem_cascadeDeadIds (msgs : List Message) (u : Nat)
    (m : Message) (hm : m ∈ msgs) (hs : m.sender = u) :
    m.message_id ∈ cascadeDeadIds msgs u := by
  apply subset_deadClosure
  exact List.mem_map_of_mem _ (List.mem_filter.mpr ⟨hm, by simp [hs]⟩)

theorem deadStep_nil (msgs : List Message) : deadStep msgs [] = [] := by
  unfold deadStep
  rw [List.filter_eq_nil_iff.mpr ?_]
  · rfl
  · intro m _
    cases hp : m.parent_message <;> simp [hp]

theorem deadClosure_nil (msgs : List Message) (n : Nat) :
    deadClosure msgs n [] = [] := by
  induction n with
  | zero => rfl
  | succ n ih => rw [deadClosure, deadStep_nil, ih]

theorem cascadeDeadIds_of_no_sender (msgs : List Message) (u : Nat)
    (h : ∀ m ∈ msgs, m.sender ≠ u) :
    cascadeDeadIds msgs u = [] := by
  unfold cascadeDeadIds
  have hinit : (msgs.filter (fun m => m.sender == u)).map Message.message_id = [] := by
    rw [List.filter_eq_nil_iff.mpr]
    · rfl
    · intro m hm
      simp [h m hm]
  rw [hinit, deadClosure_nil]

theorem cascade_messages_sender_ne (db : DB) (u : Nat) :
    ∀ m ∈ (djangoUserDeleteCascade db u).messages, m.sender ≠ u := by
  intro m hm
  simp only [djangoUserDeleteCascade, List.mem_map, List.mem_filter] at hm
  obtain ⟨m0, ⟨hm0, hnd⟩, rfl⟩ := hm
  have hsender : (if m0.edited_by == some u
      then { m0 with edited_by := none } else m0).sender = m0.sender := by
    by_cases he : m0.edited_by == some u <;> simp [he]
  rw [hsender]
  intro hs
  have hmem : m0.message_id ∈ cascadeDeadIds db.messages u :=
    sender_mem_cascadeDeadIds db.messages u m0 hm0 hs
  simp [hmem] at hnd

theorem deleteUser_histories (db : DB) (u : Nat) :
    (deleteUser db u).histories =
      ((db.histories.filter (fun h =>
          !(decide (h.message ∈ cascadeDeadIds db.messages u)))).map
        (fun h => if h.edited_by == some u then { h with edited_by := none } else h)).filter
        (fun h => h.edited_by != some u) := by
  have hnil : cascadeDeadIds (djangoUserDeleteCascade db u).messages u = [] :=
    cascadeDeadIds_of_no_sender _ u (cascade_messages_sender_ne db u)
  simp only [deleteUser, cleanup_user_related_data, hnil]
  simp only [djangoUserDeleteCascade]
  simp

/-- A database where user 1 both authored and edited message 10, which has
one history snapshot attributed to user 1 as editor. -/
def dbOwnEdit : DB :=
  { users := [1, 2],
    conversations := [{ conversation_id := 1, participants := [1, 2] }],
    messages := [{ message_id := 10, sender := 1, conversation := 1,
                   message_body := "hello", parent_message := none,
                   edited := true, edited_by := some 1, read := false }],
    histories := [{ history_id := 100, message := 10,
                    old_content := "hi", edited_by := some 1 }],
    notifications := [] }

/-- C2 counterexample: in `dbOwnEdit` the snapshot attributed to user 1 as
editor sits on a message authored by user 1; deleting user 1 cascades that
message away, deleting the snapshot instead of retaining it with a null
editor. -/
theorem history_retention_cex :
    (∃ h ∈ dbOwnEdit.histories, h.edited_by = some 1) ∧
    (deleteUser dbOwnEdit 1).histories = [] := by decide

/-- C2 amended: when an actor is deleted, every HistorySnapshot attributed
to that actor as editor whose snapshotted message is not itself removed by
the deletion cascade (the actor's own messages and, transitively through
`parent_message`, every reply below them) is retained with its editor
reference set to null; snapshots on cascade-deleted messages are deleted
together with those messages. -/
theorem history_anonymized_on_actor_delete (db : DB) (u : Nat)
    (h : MessageHistory) (hmem : h ∈ db.histories) (hed : h.edited_by = some u)
    (hdead : h.message ∉ cascadeDeadIds db.messages u) :
    { h with edited_by := none } ∈ (deleteUser db u).histories := by
  rw [deleteUser_histories]
  apply List.mem_filter.mpr
  constructor
  · apply List.mem_map.mpr
    refine ⟨h, List.mem_filter.mpr ⟨hmem, by simp [hdead]⟩, by simp [hed]⟩
  · simp

/-- A database where user 1 edited message 10 authored by user 2. -/
def dbOtherEdit : DB :=
  { users := [1, 2],
    conversations := [{ conversation_id := 1, participants := [1, 2] }],
    messages := [{ message_id := 10, sender := 2, conversation := 1,
                   message_body := "hello", parent_message := none,
                   edited := true, edited_by := some 1, read := false }],
    histories := [{ history_id := 100, message := 10,
                    old_content := "hi", edited_by := some 1 }],
    notifications := [] }

theorem history_anonymized_on_actor_delete_witness :
    (({ history_id := 100, message := 10, old_content := "hi",
        edited_by := some 1 } : MessageHistory) ∈ dbOtherEdit.histories ∧
     (some 1 : Option Nat) = some 1 ∧
     (10 : Nat) ∉ cascadeDeadIds dbOtherEdit.messages 1) ∧
    ({ history_id := 100, message := 10, old_content := "hi",
       edited_by := none } : MessageHistory) ∈ (deleteUser dbOtherEdit 1).histories :=
  ⟨⟨by decide, rfl, by decide⟩,
   history_anonymized_on_actor_delete dbOtherEdit 1
     { history_id := 100, message := 10, old_content := "hi", edited_by := some 1 }
     (by decide) rfl (by decide)⟩

/-- A database holding a reply (message 11, by user 2) under a root message
authored by user 1, with a snapshot of the reply edited by user 2. -/
def dbReply : DB :=
  { users := [1, 2],
    conversations := [{ conversation_id := 1, participants := [1, 2] }],
    messages := [{ message_id := 10, sender := 1, conversation := 1,
                   message_body := "root", parent_message := none,
                   edited := false, edited_by := none, read := false },
                 { message_id := 11, sender := 2, conversation := 1,
                   message_body := "reply", parent_message := some 10,
                   edited := true, edited_by := some 2, read := false }],
    histories := [{ history_id := 100, message := 11,
                    old_content := "re", edited_by := some 2 }],
    notifications := [] }

/-- Deleting user 1 cascades through `parent_message`: user 2's reply under
user 1's message is deleted too, together with its snapshot. -/
theorem reply_cascade_deletes_snapshot :
    (deleteUser dbReply 1).messages = [] ∧
    (deleteUser dbReply 1).histories = [] := by decide

/-- A database whose only conversation has the sole participant 1. -/
def dbSole : DB :=
  { users := [1],
    conversations := [{ conversation_id := 5, participants := [1] }],
    messages := [], histories := [], notifications := [] }

/-- C9 counterexample: deleting user 1, the sole participant of
conversation 5, leaves the conversation in place with an empty participant
set instead of deleting it. -/
theorem empty_conversation_not_deleted_cex :
    (deleteUser dbSole 1).conversations
      = [{ conversation_id := 5, participants := [] }] ∧
    (deleteUser dbSole 1).conversations ≠ [] := by decide

/-- C9 amended: when an actor is deleted, the actor is removed from the
participant set of every conversation they belonged to, but no conversation
is ever deleted, even one whose participant set becomes empty; the actor's
own messages are deleted. -/
theorem actor_delete_conversations_retained (db : DB) (u : Nat) :
    (deleteUser db u).conversations
      = db.conversations.map (fun c =>
          { c with participants := c.participants.filter (fun p => p != u) })
    ∧ ∀ m ∈ (deleteUser db u).messages, m.sender ≠ u := by
  constructor
  · rfl
  · intro m hm
    have hm' : m ∈ (djangoUserDeleteCascade db u).messages := by
      simp only [deleteUser, cleanup_user_related_data] at hm
      simp only [List.mem_filter] at hm
      exact hm.1
    exact cascade_messages_sender_ne db u m hm'

theorem actor_delete_conversations_retained_witness :
    (deleteUser dbSole 1).conversations
      = dbSole.conversations.map (fun c =>
          { c with participants := c.participants.filter (fun p => p != 1) })
    ∧ ∀ m ∈ (deleteUser dbSole 1).messages, m.sender ≠ 1 :=
  actor_delete_conversations_retained dbSole 1

end Alx
